import Mathlib

/-!
Verification of the KNIRVCONTROLLER cognitive core (src/rust-wasm/src/lib.rs)
and the test agent core
(src/src/core/agent-core-compiler/build/test-agent-init/rust-agent/src/lib.rs).

Modelling conventions:
* `f32` values are modelled as `Option ℚ`: `some q` is a finite float value
  taken exactly (decimal literals from the source are exact rationals), and
  `none` models NaN.  Division returns `none` when the divisor is zero; in the
  source the only reachable zero-divisor case is `0.0 / 0.0`, which is NaN in
  IEEE arithmetic, so conflating the infinities with NaN is harmless here.
* `f32` values that can never become NaN along the modelled operations
  (personality metric values, feedback values, attention focus) are plain `ℚ`.
* The 562M-entry top-level weight buffer and the host-message transport are
  opaque storage that no modelled operation ever reads (spec sections 1 and 6
  declare them out of scope); they are omitted from the engine record.
  Per-module weight buffers are kept (1000 resp. 2000 zeros, as in the source).
* Host-clock readings (`js_sys::Date::now()`) are passed in as a parameter
  `now`; successive readings inside one call are modelled as equal, so the
  reported processing time is 0.  No claim concerns timestamps.
* `f32::tanh` and `f32::sqrt` are transcendental and not rational-valued; the
  pipeline is parametrised by functions `squash` (for `tanh`) and `fsqrt`
  (for `sqrt`).  The only fact any proof uses about them is `squash 0 = 0`,
  which holds for `tanh`.
-/

/-- NaN-propagating addition on modelled f32 values. -/
def oAdd (a b : Option ℚ) : Option ℚ :=
  match a, b with
  | some x, some y => some (x + y)
  | _, _ => none

/-- NaN-propagating subtraction on modelled f32 values. -/
def oSub (a b : Option ℚ) : Option ℚ :=
  match a, b with
  | some x, some y => some (x - y)
  | _, _ => none

/-- NaN-propagating multiplication on modelled f32 values. -/
def oMul (a b : Option ℚ) : Option ℚ :=
  match a, b with
  | some x, some y => some (x * y)
  | _, _ => none

/-- NaN-propagating division; a zero divisor yields `none` (the reachable
case in the source is `0.0/0.0`, which is NaN). -/
def oDiv (a b : Option ℚ) : Option ℚ :=
  match a, b with
  | some x, some y => if y = 0 then none else some (x / y)
  | _, _ => none

/-- `Iterator::sum` over f32: left fold of addition starting at `0.0`;
a NaN element makes the whole sum NaN. -/
def oSum (xs : List (Option ℚ)) : Option ℚ :=
  xs.foldl oAdd (some 0)

/-- Rust `f32::min(self, other)`: if `self` is NaN the other operand is
returned, so the result here is always a plain rational. -/
def oMinC (a : Option ℚ) (y : ℚ) : ℚ :=
  match a with
  | some x => min x y
  | none => y

/-- Rust `f32::clamp(lo, hi)` on a finite value. -/
def rclamp (x lo hi : ℚ) : ℚ :=
  if x < lo then lo else if x > hi then hi else x

/-- Map with the element's 0-based position, starting at index `i`. -/
def enumMapFrom (f : ℕ → α → β) : ℕ → List α → List β
  | _, [] => []
  | i, a :: rest => f i a :: enumMapFrom f (i + 1) rest

/-- `iter().enumerate()` followed by a map. -/
def enumMap (f : ℕ → α → β) (l : List α) : List β :=
  enumMapFrom f 0 l

/-- `LModule` from the source: a fast sensory-motor unit. -/
structure LModule where
  id : ℕ
  weights : List ℚ
  activation : Option ℚ
deriving DecidableEq

/-- `HModule` from the source: a deep long-horizon planning unit. -/
structure HModule where
  id : ℕ
  weights : List ℚ
  planning_depth : ℕ
  activation : Option ℚ
deriving DecidableEq

/-- `CognitiveInput` from the source (the successfully decoded shape). -/
structure CognitiveInput where
  sensory_data : List ℚ
  context : String
  task_type : String
deriving DecidableEq

/-- `AdaptationEvent` from the source. -/
structure AdaptationEvent where
  timestamp : ℚ
  event_type : String
  user_feedback : ℚ
  context : String
  adaptation_delta : List (String × ℚ)
deriving DecidableEq

/-- `PersonalityAdapter` from the source; the `HashMap` of metrics is
modelled as an association list with at most one binding per key. -/
structure PersonalityAdapter where
  user_id : String
  personality_metrics : List (String × ℚ)
  adaptation_history : List AdaptationEvent
  learning_rate : ℚ
deriving DecidableEq

/-- `MemoryItem` from the source.  The source builds the string id
`format!("mem_{}", now)`; only the embedded clock reading is modelled. -/
structure MemoryItem where
  id : ℚ
  content : String
  importance : Option ℚ
  timestamp : ℚ
  associations : List String
deriving DecidableEq

/-- `EmotionalState` from the source; each field is a modelled f32. -/
structure EmotionalState where
  valence : Option ℚ
  arousal : Option ℚ
  dominance : Option ℚ
  stability : Option ℚ
deriving DecidableEq

/-- `ProcessingMode` from the source. -/
inductive ProcessingMode where
  | Analytical
  | Creative
  | Reactive
  | Contemplative
deriving DecidableEq

/-- `CognitiveState` from the source. -/
structure CognitiveState where
  current_task : Option String
  attention_focus : List ℚ
  memory_buffer : List MemoryItem
  emotional_state : EmotionalState
  processing_mode : ProcessingMode
deriving DecidableEq

/-- The engine (`HRMCognitive`), without the opaque weight buffer and host
transport (never read by any modelled operation; out of scope per the spec). -/
structure HRMCognitive where
  l_modules : List LModule
  h_modules : List HModule
  personality_adapter : PersonalityAdapter
  cognitive_state : CognitiveState
deriving DecidableEq

/-- `HRMCognitive::new` from the source. -/
def HRMCognitive.new : HRMCognitive :=
  { l_modules := []
    h_modules := []
    personality_adapter :=
      { user_id := "default"
        personality_metrics := []
        adaptation_history := []
        learning_rate := 1/100 }
    cognitive_state :=
      { current_task := none
        attention_focus := List.replicate 10 0
        memory_buffer := []
        emotional_state :=
          { valence := some 0
            arousal := some (1/2)
            dominance := some (1/2)
            stability := some (4/5) }
        processing_mode := ProcessingMode.Analytical } }

/-- `initialize_modules` from the source: pushes `l_count` fresh L-modules and
`h_count` fresh H-modules onto the existing collections (no clearing). -/
def initialize_modules (st : HRMCognitive) (l_count h_count : ℕ) : HRMCognitive :=
  { st with
    l_modules := st.l_modules ++
      (List.range l_count).map
        (fun i => { id := i, weights := List.replicate 1000 0, activation := some 0 })
    h_modules := st.h_modules ++
      (List.range h_count).map
        (fun i => { id := i, weights := List.replicate 2000 0, planning_depth := 5,
                    activation := some 0 }) }

/-- Per-metric weight used by `apply_personality_adaptation` in the source. -/
def metricWeight (name : String) : ℚ :=
  if name = "creativity" then 3/10
  else if name = "analytical" then 1/5
  else if name = "empathy" then 1/4
  else if name = "assertiveness" then 3/20
  else 1/10

/-- The accumulated influence before the `tanh` squash: the source folds
`influence += value * weight` over the metrics map (the sum is independent of
the map's iteration order). -/
def personalityInfluenceRaw (metrics : List (String × ℚ)) : ℚ :=
  metrics.foldl (fun acc p => acc + p.2 * metricWeight p.1) 0

/-- `apply_personality_adaptation` from the source: computes the squashed
influence and appends a fresh `AdaptationEvent` with feedback 0 to the
history.  `squash` models `f32::tanh`. -/
def apply_personality_adaptation (squash : ℚ → ℚ) (pa : PersonalityAdapter)
    (now : ℚ) (inp : CognitiveInput) : PersonalityAdapter × ℚ :=
  let influence := personalityInfluenceRaw pa.personality_metrics
  let ev : AdaptationEvent :=
    { timestamp := now
      event_type := inp.task_type
      user_feedback := 0
      context := inp.context
      adaptation_delta := [] }
  ({ pa with adaptation_history := pa.adaptation_history ++ [ev] }, squash influence)

/-- `update_attention_focus` from the source: indices below the sensory length
are exponentially smoothed toward the sensory value, the rest are unchanged. -/
def updateAttention : List ℚ → List ℚ → List ℚ
  | [], _ => []
  | fs, [] => fs
  | f :: fs, s :: ss => (f * (4/5) + s * (1/5)) :: updateAttention fs ss

/-- The mean computed by the source as `sum / (len as f32)`: for an empty
list this is `0.0 / 0.0`, i.e. NaN. -/
def meanF32 (xs : List ℚ) : Option ℚ :=
  oDiv (some xs.sum) (some (xs.length : ℚ))

/-- The L-module activation the source assigns at enumerate-index `i`:
`(sum(sensory)/len(sensory)) * (i+1)/10 * (1 + influence*0.2)`. -/
def fastActivation (sensory : List ℚ) (influence : ℚ) (i : ℕ) : Option ℚ :=
  oMul (oMul (meanF32 sensory) (some ((i + 1 : ℚ) / 10)))
    (some (1 + influence * (1/5)))

/-- The H-module activation the source assigns at enumerate-index `i`:
`(sum(l_activations)/planning_depth) * (i+1)/5 * emotional_modifier`. -/
def deepActivation (l_acts : List (Option ℚ)) (emod : Option ℚ)
    (depth : ℕ) (i : ℕ) : Option ℚ :=
  oMul (oMul (oDiv (oSum l_acts) (some (depth : ℚ))) (some ((i + 1 : ℚ) / 5))) emod

/-- `update_emotional_state` from the source: exponential smoothing of arousal
and dominance from the mean activations, stability decays toward 1; valence is
not touched. -/
def update_emotional_state (es : EmotionalState)
    (l_acts h_acts : List (Option ℚ)) : EmotionalState :=
  let l_energy := oDiv (oSum l_acts) (some (l_acts.length : ℚ))
  let h_planning := oDiv (oSum h_acts) (some (h_acts.length : ℚ))
  { es with
    arousal := oAdd (oMul es.arousal (some (9/10))) (oMul l_energy (some (1/10)))
    dominance := oAdd (oMul es.dominance (some (9/10))) (oMul h_planning (some (1/10)))
    stability := oAdd (oMul es.stability (some (19/20))) (some (1/20)) }

/-- The significance score from `store_memory_if_significant`:
`(sum(l) + sum(h)) / (len(l) + len(h))`. -/
def significance (l_acts h_acts : List (Option ℚ)) : Option ℚ :=
  oDiv (oAdd (oSum l_acts) (oSum h_acts))
    (some ((l_acts.length + h_acts.length : ℕ) : ℚ))

/-- The admission test `significance > 0.5`; a NaN significance compares
false, as in IEEE arithmetic. -/
def sigAdmits (l_acts h_acts : List (Option ℚ)) : Bool :=
  match significance l_acts h_acts with
  | some s => decide (s > 1/2)
  | none => false

/-- The `MemoryItem` constructed on admission. -/
def mkMemoryItem (now : ℚ) (inp : CognitiveInput) (sig : Option ℚ) : MemoryItem :=
  { id := now
    content := inp.task_type ++ ": " ++ inp.context
    importance := sig
    timestamp := now
    associations := [inp.task_type] }

/-- `store_memory_if_significant` from the source: admit when significance
exceeds 0.5, then drop the front item if the buffer exceeds 100 entries. -/
def store_memory_if_significant (buf : List MemoryItem) (now : ℚ)
    (inp : CognitiveInput) (l_acts h_acts : List (Option ℚ)) : List MemoryItem :=
  if sigAdmits l_acts h_acts then
    let b := buf ++ [mkMemoryItem now inp (significance l_acts h_acts)]
    if b.length > 100 then b.tail else b
  else buf

/-- `calculate_variance` from the source (it actually returns the standard
deviation: `sqrt` of the population variance); `fsqrt` models `f32::sqrt`. -/
def calculate_variance (fsqrt : ℚ → ℚ) (values : List (Option ℚ)) : Option ℚ :=
  if values.length = 0 then some 0
  else
    let m := oDiv (oSum values) (some (values.length : ℚ))
    let variance :=
      oDiv (oSum (values.map (fun x => oMul (oSub x m) (oSub x m))))
        (some (values.length : ℚ))
    variance.map fsqrt

/-- `calculate_confidence` from the source:
`((l_var + h_var)/2 * stability).min(1.0).max(0.0)`; the Rust min/max return
the other operand on NaN, so the result is always a plain rational. -/
def calculate_confidence (fsqrt : ℚ → ℚ) (es : EmotionalState)
    (l_acts h_acts : List (Option ℚ)) : ℚ :=
  let l_var := calculate_variance fsqrt l_acts
  let h_var := calculate_variance fsqrt h_acts
  max (oMinC (oMul (oDiv (oAdd l_var h_var) (some 2)) es.stability) 1) 0

/-- `calculate_adaptation_score` from the source: 0 for an empty history,
otherwise the sum of the last (up to) 10 feedback values divided by 10
(always by 10, regardless of how many entries were taken), clamped via
`.min(1.0).max(-1.0)`. -/
def calculate_adaptation_score (history : List AdaptationEvent) : ℚ :=
  if history.length = 0 then 0
  else
    max (min (((history.reverse.take 10).map (fun e => e.user_feedback)).sum / 10) 1) (-1)

/-- The data embedded by `generate_reasoning_result` into the reasoning
string (the decimal formatting itself is not modelled; no claim reads it). -/
structure ReasoningResult where
  task : String
  l_avg : Option ℚ
  h_avg : Option ℚ
  valence : Option ℚ
deriving DecidableEq

/-- `generate_reasoning_result` from the source. -/
def generate_reasoning_result (es : EmotionalState) (inp : CognitiveInput)
    (l_acts h_acts : List (Option ℚ)) : ReasoningResult :=
  { task := inp.task_type
    l_avg := oDiv (oSum l_acts) (some (l_acts.length : ℚ))
    h_avg := oDiv (oSum h_acts) (some (h_acts.length : ℚ))
    valence := es.valence }

/-- `CognitiveOutput` from the source. -/
structure CognitiveOutput where
  reasoning_result : ReasoningResult
  confidence : ℚ
  processing_time : ℚ
  l_module_activations : List (Option ℚ)
  h_module_activations : List (Option ℚ)
  personality_influence : ℚ
  adaptation_score : ℚ
deriving DecidableEq

/-- `process_cognitive_input` from the source.  The serde decode of the input
JSON is modelled by its result: `none` is a string that does not decode into
the `CognitiveInput` shape, and the early return of the literal `"{}"` is
modelled by the output `none`. -/
def process_cognitive_input (squash fsqrt : ℚ → ℚ) (now : ℚ)
    (st : HRMCognitive) (parsed : Option CognitiveInput) :
    HRMCognitive × Option CognitiveOutput :=
  match parsed with
  | none => (st, none)
  | some inp =>
    let cs0 := st.cognitive_state
    let cs1 := { cs0 with
      current_task := some inp.task_type
      attention_focus := updateAttention cs0.attention_focus inp.sensory_data }
    let par := apply_personality_adaptation squash st.personality_adapter now inp
    let pa1 := par.1
    let influence := par.2
    let l_mods := enumMap
      (fun i m => { m with activation := fastActivation inp.sensory_data influence i })
      st.l_modules
    let l_acts := l_mods.map (fun m => m.activation)
    let emod := oAdd (oMul cs1.emotional_state.valence (some (1/10))) (some 1)
    let h_mods := enumMap
      (fun i m => { m with activation := deepActivation l_acts emod m.planning_depth i })
      st.h_modules
    let h_acts := h_mods.map (fun m => m.activation)
    let es1 := update_emotional_state cs1.emotional_state l_acts h_acts
    let buf1 := store_memory_if_significant cs1.memory_buffer now inp l_acts h_acts
    let conf := calculate_confidence fsqrt es1 l_acts h_acts
    let ascore := calculate_adaptation_score pa1.adaptation_history
    let cs2 := { cs1 with emotional_state := es1, memory_buffer := buf1 }
    let out : CognitiveOutput :=
      { reasoning_result := generate_reasoning_result es1 inp l_acts h_acts
        confidence := conf
        processing_time := 0
        l_module_activations := l_acts
        h_module_activations := h_acts
        personality_influence := influence
        adaptation_score := ascore }
    ({ st with l_modules := l_mods, h_modules := h_mods,
               personality_adapter := pa1, cognitive_state := cs2 }, some out)

/-- Insertion into the metrics map (`HashMap::insert`): overwrite an existing
binding, otherwise add a new one. -/
def insertMetric (m : List (String × ℚ)) (k : String) (v : ℚ) : List (String × ℚ) :=
  if m.any (fun p => p.1 = k) then m.map (fun p => if p.1 = k then (k, v) else p)
  else m ++ [(k, v)]

/-- `set_personality_metric` from the source: stores the value clamped to
[-1, 1]. -/
def set_personality_metric (pa : PersonalityAdapter) (metric : String)
    (value : ℚ) : PersonalityAdapter :=
  { pa with personality_metrics :=
      insertMetric pa.personality_metrics metric (rclamp value (-1) 1) }

/-- The per-metric adjustment rule of `adapt_personality_from_feedback`,
including the final clamp to [-1, 1]. -/
def adaptMetricValue (lr feedback : ℚ) (metric : String) (value : ℚ) : ℚ :=
  let v :=
    if metric = "creativity" then
      if feedback > 1/2 then value + lr * (1/10)
      else if feedback < -(1/2) then value - lr * (1/10)
      else value
    else if metric = "analytical" then
      if feedback > 3/10 then value + lr * (1/20) else value
    else value + lr * feedback * (1/50)
  rclamp v (-1) 1

/-- `adapt_personality_from_feedback` from the source: every stored metric is
adjusted by its per-name rule and reclamped to [-1, 1]. -/
def adapt_personality_from_feedback (pa : PersonalityAdapter)
    (feedback : ℚ) : PersonalityAdapter :=
  let m := pa.personality_metrics.map
    (fun p => (p.1, adaptMetricValue pa.learning_rate feedback p.1 p.2))
  { pa with personality_metrics := m }

/-- Overwrite the feedback of the last event of the history (`last_mut`). -/
def setLastFeedback (f : ℚ) : List AdaptationEvent → List AdaptationEvent
  | [] => []
  | [e] => [{ e with user_feedback := f }]
  | e :: rest => e :: setLastFeedback f rest

/-- `update_user_feedback` from the source: a no-op when the history is
empty; otherwise the clamped feedback is written into the most recent event
and the metrics are adapted (note: the adaptation uses the unclamped
feedback, as the source passes the original argument on). -/
def update_user_feedback (pa : PersonalityAdapter) (_taskId : String)
    (feedback : ℚ) : PersonalityAdapter :=
  match pa.adaptation_history with
  | [] => pa
  | _ :: _ =>
    adapt_personality_from_feedback
      { pa with adaptation_history :=
          setLastFeedback (rclamp feedback (-1) 1) pa.adaptation_history }
      feedback

/-- `AgentConfig` from the test agent source. -/
structure AgentConfig where
  agent_id : String
  max_context_size : ℕ
  learning_rate : ℚ
  adaptation_threshold : ℚ
  skill_timeout : ℕ
deriving DecidableEq

/-- `AgentCore` from the test agent source. -/
structure AgentCore where
  config : AgentConfig
  agent_initialized : Bool
  memory : List String
deriving DecidableEq

/-- `AgentCore::new` from the test agent source. -/
def AgentCore.new : AgentCore :=
  { config :=
      { agent_id := "test-agent-init"
        max_context_size := 10000
        learning_rate := 1/100
        adaptation_threshold := 7/10
        skill_timeout := 30000 }
    agent_initialized := false
    memory := [] }

/-- The error record `{"error": "Agent not initialized"}` returned by the
agent entry points before initialization. -/
def agentNotInitializedError : String :=
  "\x7b\"error\": \"Agent not initialized\"\x7d"

/-- The private `process_cognitive_input` of the test agent: a formatted JSON
string whose confidence is 0.8 for inputs longer than 10 and 0.6 otherwise
(Rust measures bytes, modelled as characters; no claim depends on it). -/
def AgentCore.processCognitiveText (a : AgentCore) (input ctx : String) : String :=
  let confidence := if input.length > 10 then "0.8" else "0.6"
  "\x7b\"success\": true, \"result\": \x7b\"response\": \"Processed: " ++ input ++
    "\", \"confidence\": " ++ confidence ++
    ", \"source\": \"rust-agent-core\"\x7d, \"processingTime\": 50, \"metadata\": \x7b\"agentId\": \"" ++
    a.config.agent_id ++ "\", \"contextSize\": " ++ toString ctx.length ++ "\x7d\x7d"

/-- `agent_core_execute` from the test agent source: rejects when not
initialized; otherwise processes the input and stores it in memory with a
FIFO cap of `max_context_size`. -/
def agent_core_execute (a : AgentCore) (input ctx : String) : AgentCore × String :=
  if !a.agent_initialized then (a, agentNotInitializedError)
  else
    let result := a.processCognitiveText input ctx
    let mem1 := a.memory ++ [input]
    let mem2 := if mem1.length > a.config.max_context_size then mem1.tail else mem1
    ({ a with memory := mem2 }, result)

/-- `agent_core_execute_tool` from the test agent source. -/
def agent_core_execute_tool (a : AgentCore) (tool params _ctx : String) : String :=
  if !a.agent_initialized then agentNotInitializedError
  else
    "\x7b\"success\": true, \"result\": \"Tool " ++ tool ++
      " executed successfully\", \"parameters\": " ++ params ++
      ", \"agentId\": \"" ++ a.config.agent_id ++ "\"\x7d"

/-- `agent_core_load_lora` from the test agent source: always returns true,
no state change. -/
def agent_core_load_lora (a : AgentCore) (_adapter : String) : AgentCore × Bool :=
  (a, true)

/-- `agent_core_apply_skill` from the test agent source: always returns true,
no state change. -/
def agent_core_apply_skill (a : AgentCore) (_protoBytes : List ℕ) : AgentCore × Bool :=
  (a, true)

/-- `agent_core_get_status` from the test agent source. -/
def agent_core_get_status (a : AgentCore) : String :=
  "\x7b\"agentId\": \"" ++ a.config.agent_id ++
    "\", \"agentName\": \"Test Agent Init\", \"version\": \"1.0.0\", \"initialized\": " ++
    (if a.agent_initialized then "true" else "false") ++
    ", \"cognitiveEngine\": \"rust-wasm\", \"availableTools\": [], \"memorySize\": " ++
    toString a.memory.length ++ "\x7d"

/-- The state-mutating entry points of the test agent (`&mut self`);
`agent_core_execute_tool`, `agent_core_get_status` take `&self` and cannot
change the state. -/
inductive AgentOp where
  | execute (input ctx : String)
  | loadLora (adapter : String)
  | applySkill (protoBytes : List ℕ)
deriving DecidableEq

/-- One exposed mutating call. -/
def applyAgentOp (a : AgentCore) : AgentOp → AgentCore
  | AgentOp.execute i c => (agent_core_execute a i c).1
  | AgentOp.loadLora s => (agent_core_load_lora a s).1
  | AgentOp.applySkill b => (agent_core_apply_skill a b).1

/-- Any reachable agent state: the constructor followed by any sequence of
exposed mutating calls. -/
def runAgentOps (ops : List AgentOp) : AgentCore :=
  ops.foldl applyAgentOp AgentCore.new

/-- Folding the f32 sum over a NaN-free list, with an explicit accumulator. -/
theorem oFoldl_oAdd_some (l : List ℚ) : ∀ a : ℚ,
    (l.map some).foldl oAdd (some a) = some (a + l.sum) := by
  induction l with
  | nil => intro a; simp
  | cons x xs ih =>
    intro a
    simp only [List.map_cons, List.foldl_cons, oAdd, List.sum_cons]
    rw [ih]
    ring_nf

/-- The f32 sum of a NaN-free list is the rational sum. -/
theorem oSum_map_some (l : List ℚ) : oSum (l.map some) = some l.sum := by
  simpa using oFoldl_oAdd_some l 0

/-- C7: an input string that does not decode into the `CognitiveInput` shape
(modelled by the decode result `none`) makes `process_cognitive_input` return
the empty result record (the literal `"{}"`, modelled by output `none`) and
leave the engine state untouched; being a total function, the model cannot
fault. -/
theorem claim_C7 : ∀ (squash fsqrt : ℚ → ℚ) (now : ℚ) (st : HRMCognitive),
    process_cognitive_input squash fsqrt now st none = (st, none) := by
  intro squash fsqrt now st
  rfl

/-- C9: a `process_cognitive_input` call never changes the emotional
valence: for every engine state and every (well-formed or malformed) input,
the valence after the call equals the valence before it. -/
theorem claim_C9 : ∀ (squash fsqrt : ℚ → ℚ) (now : ℚ) (st : HRMCognitive)
    (parsed : Option CognitiveInput),
    ((process_cognitive_input squash fsqrt now st parsed).1).cognitive_state.emotional_state.valence
      = st.cognitive_state.emotional_state.valence := by
  intro squash fsqrt now st parsed
  cases parsed <;> rfl

/-- C2, counterexample: calling `initialize_modules 3 2` twice leaves 6 fast
units, not 3 — initialization appends instead of replacing, so the claim
"after any call the engine holds exactly f fast units regardless of prior
pool contents" is false. -/
theorem claim_C2_cex :
    (initialize_modules (initialize_modules HRMCognitive.new 3 2) 3 2).l_modules.length = 6 ∧
    ¬ (initialize_modules (initialize_modules HRMCognitive.new 3 2) 3 2).l_modules.length = 3 := by
  have h6 : (initialize_modules (initialize_modules HRMCognitive.new 3 2) 3 2).l_modules.length = 6 := rfl
  exact ⟨h6, fun h => absurd (h6.symm.trans h) (by decide)⟩

/-- C2, amended: `initialize_modules f d` appends `f` fast and `d` deep units
to the existing pools; only on a freshly constructed engine (empty pools)
does it leave exactly `f` fast and `d` deep units.  Repeated calls
accumulate units rather than resetting them. -/
theorem claim_C2 :
    (∀ (st : HRMCognitive) (f d : ℕ),
      (initialize_modules st f d).l_modules.length = st.l_modules.length + f ∧
      (initialize_modules st f d).h_modules.length = st.h_modules.length + d) ∧
    (∀ f d : ℕ,
      (initialize_modules HRMCognitive.new f d).l_modules.length = f ∧
      (initialize_modules HRMCognitive.new f d).h_modules.length = d) := by
  have hl : ∀ (st : HRMCognitive) (f d : ℕ),
      (initialize_modules st f d).l_modules.length = st.l_modules.length + f := by
    intro st f d
    show (st.l_modules ++ (List.range f).map _).length = _
    rw [List.length_append, List.length_map, List.length_range]
  have hh : ∀ (st : HRMCognitive) (f d : ℕ),
      (initialize_modules st f d).h_modules.length = st.h_modules.length + d := by
    intro st f d
    show (st.h_modules ++ (List.range d).map _).length = _
    rw [List.length_append, List.length_map, List.length_range]
  refine ⟨fun st f d => ⟨hl st f d, hh st f d⟩, fun f d => ⟨?_, ?_⟩⟩
  · rw [hl HRMCognitive.new f d]
    exact Nat.zero_add f
  · rw [hh HRMCognitive.new f d]
    exact Nat.zero_add d

/-- C4: with a non-empty fast pool (2 units) and empty `sensory_data`, the
source computes `mean = 0.0/0.0 = NaN`, so the fast activations are
[NaN, NaN] (modelled `[none, none]`) — not the `[0.0, 0.0]` the claim (and
the spec's mandated guard) requires.  There is no division fault, but the
claimed guarded value 0 is not produced. -/
theorem claim_C4 : ∀ (squash fsqrt : ℚ → ℚ) (now : ℚ) (ctx task : String),
    ((process_cognitive_input squash fsqrt now (initialize_modules HRMCognitive.new 2 0)
        (some { sensory_data := [], context := ctx, task_type := task })).2).map
      (fun o => o.l_module_activations) = some [none, none] := by
  intro squash fsqrt now ctx task
  rfl

/-- C8: applying user feedback when the adaptation history is empty is a
no-op — no event is written and the personality metrics (indeed the whole
adapter) are unchanged. -/
theorem claim_C8 : ∀ (pa : PersonalityAdapter) (taskId : String) (feedback : ℚ),
    pa.adaptation_history = [] → update_user_feedback pa taskId feedback = pa := by
  intro pa taskId feedback h
  simp [update_user_feedback, h]

/-- C8 witness: feedback 0.9 on the freshly constructed adapter (empty
history) changes nothing. -/
theorem claim_C8_witness :
    HRMCognitive.new.personality_adapter.adaptation_history = [] ∧
    update_user_feedback HRMCognitive.new.personality_adapter "task" (9/10)
      = HRMCognitive.new.personality_adapter :=
  ⟨rfl, claim_C8 HRMCognitive.new.personality_adapter "task" (9/10) rfl⟩

/-- Before initialization every mutating agent entry point leaves the state
unchanged: `agent_core_execute` rejects, the others never write. -/
theorem applyAgentOp_frozen (a : AgentCore) (h : a.agent_initialized = false)
    (op : AgentOp) : applyAgentOp a op = a := by
  cases op <;>
    simp [applyAgentOp, agent_core_execute, agent_core_load_lora,
      agent_core_apply_skill, h]

/-- Folding frozen operations from an uninitialized state goes nowhere. -/
theorem foldAgentOps_frozen (ops : List AgentOp) : ∀ a : AgentCore,
    a.agent_initialized = false → ops.foldl applyAgentOp a = a := by
  induction ops with
  | nil => intro a _; rfl
  | cons op rest ih =>
    intro a h
    rw [List.foldl_cons, applyAgentOp_frozen a h op, ih a h]

/-- C10: in the test agent core the initialized flag is false in every
reachable state (the constructor sets it false and no exposed operation sets
it true), so `agent_core_execute` and `agent_core_execute_tool` always
return the "Agent not initialized" error record and the memory stays
empty. -/
theorem claim_C10 : ∀ ops : List AgentOp,
    (runAgentOps ops).agent_initialized = false ∧
    (runAgentOps ops).memory = [] ∧
    (∀ input ctx : String,
      agent_core_execute (runAgentOps ops) input ctx
        = (runAgentOps ops, agentNotInitializedError)) ∧
    (∀ tool params ctx : String,
      agent_core_execute_tool (runAgentOps ops) tool params ctx
        = agentNotInitializedError) := by
  intro ops
  have hrun : runAgentOps ops = AgentCore.new := foldAgentOps_frozen ops AgentCore.new rfl
  refine ⟨by rw [hrun]; rfl, by rw [hrun]; rfl, ?_, ?_⟩
  · intro input ctx
    rw [hrun]
    rfl
  · intro tool params ctx
    rw [hrun]
    rfl

/-- The adaptation score as the spec words it (section 4.5): "take the last
10 entries of the adaptation history (fewer if shorter, 0 if history is
empty), average their feedback values, clamp to [-1,1]".  Used to compare
the source's `calculate_adaptation_score` against the spec. -/
def specAdaptationScore (history : List AdaptationEvent) : ℚ :=
  let recent := (history.reverse.take 10).map (fun e => e.user_feedback)
  if recent.length = 0 then 0 else rclamp (recent.sum / recent.length) (-1) 1

/-- The `.min(1.0).max(-1.0)` chain agrees with `clamp(-1.0, 1.0)` on finite
values. -/
theorem minmax_eq_rclamp (x : ℚ) : max (min x 1) (-1) = rclamp x (-1) 1 := by
  unfold rclamp
  split_ifs with h1 h2
  · rw [min_eq_left (by linarith), max_eq_right (by linarith)]
  · rw [min_eq_right (by linarith), max_eq_left (by linarith)]
  · rw [min_eq_left (by linarith), max_eq_left (by linarith)]

/-- Clamping to [-1, 1] lands in [-1, 1]. -/
theorem rclamp_bounds (v : ℚ) : -1 ≤ rclamp v (-1) 1 ∧ rclamp v (-1) 1 ≤ 1 := by
  unfold rclamp
  split_ifs <;> constructor <;> linarith

/-- A history entry whose feedback is 1 (a legal, already-clamped value). -/
def c3Event : AdaptationEvent :=
  { timestamp := 0
    event_type := "t"
    user_feedback := 1
    context := ""
    adaptation_delta := [] }

/-- C3, counterexample: on a one-entry history with feedback 1 the source
returns `1/10` (it divides the sum of the recent feedbacks by 10 regardless
of how many there are), while the average of the last entries — what the
claim states — is 1.  So `calculate_adaptation_score` is not the average
for histories shorter than 10. -/
theorem claim_C3_cex :
    calculate_adaptation_score [c3Event] = 1/10 ∧
    specAdaptationScore [c3Event] = 1 ∧
    calculate_adaptation_score [c3Event] ≠ specAdaptationScore [c3Event] := by
  have h1 : calculate_adaptation_score [c3Event] = 1/10 := by
    unfold calculate_adaptation_score
    simp [c3Event]
    rw [min_eq_left (by norm_num), max_eq_left (by norm_num)]
  have h2 : specAdaptationScore [c3Event] = 1 := by
    unfold specAdaptationScore
    simp [c3Event, rclamp]
  exact ⟨h1, h2, by rw [h1, h2]; norm_num⟩

/-- C3, amended: `calculate_adaptation_score` returns 0 exactly on the empty
history; otherwise it returns the sum of the feedback values of the last
min(10, length) entries divided by 10 — equal to their clamped average only
when the history has at least 10 entries — clamped to [-1, 1]; its output
always lies within [-1, 1]. -/
theorem claim_C3 :
    (calculate_adaptation_score [] = 0) ∧
    (∀ h : List AdaptationEvent,
      -1 ≤ calculate_adaptation_score h ∧ calculate_adaptation_score h ≤ 1) ∧
    (∀ h : List AdaptationEvent, h ≠ [] →
      calculate_adaptation_score h
        = rclamp ((((h.reverse.take 10).map (fun e => e.user_feedback)).sum) / 10) (-1) 1) ∧
    (∀ h : List AdaptationEvent, 10 ≤ h.length →
      calculate_adaptation_score h = specAdaptationScore h) := by
  refine ⟨rfl, ?_, ?_, ?_⟩
  · intro h
    unfold calculate_adaptation_score
    split_ifs with h0
    · norm_num
    · rw [minmax_eq_rclamp]
      constructor
      · exact (rclamp_bounds _).1
      · exact (rclamp_bounds _).2
  · intro h hne
    unfold calculate_adaptation_score
    rw [if_neg (fun h0 => hne (List.length_eq_zero.1 h0)), minmax_eq_rclamp]
  · intro h h10
    have hne : h.length ≠ 0 := by omega
    have hrl : ((h.reverse.take 10).map (fun e => e.user_feedback)).length = 10 := by
      rw [List.length_map, List.length_take, List.length_reverse]
      omega
    unfold calculate_adaptation_score specAdaptationScore
    rw [if_neg hne, if_neg (by rw [hrl]; omega), hrl, minmax_eq_rclamp]
    norm_num

/-- C3 witness: on a 10-entry history the source's score coincides with the
spec's clamped average. -/
theorem claim_C3_witness :
    10 ≤ (List.replicate 10 c3Event).length ∧
    calculate_adaptation_score (List.replicate 10 c3Event)
      = specAdaptationScore (List.replicate 10 c3Event) :=
  ⟨by simp, claim_C3.2.2.2 (List.replicate 10 c3Event) (by simp)⟩

/-- Every value of the per-metric adjustment rule lies in [-1, 1] (it ends
in the clamp). -/
theorem adaptMetricValue_bounds (lr f : ℚ) (m : String) (v : ℚ) :
    -1 ≤ adaptMetricValue lr f m v ∧ adaptMetricValue lr f m v ≤ 1 := by
  simp only [adaptMetricValue]
  exact rclamp_bounds _

/-- All stored personality metric values lie in [-1, 1]. -/
def metricsBounded (pa : PersonalityAdapter) : Prop :=
  ∀ p ∈ pa.personality_metrics, -1 ≤ p.2 ∧ p.2 ≤ 1

/-- `set_personality_metric` preserves metric boundedness (it stores a
clamped value). -/
theorem set_personality_metric_bounded (pa : PersonalityAdapter) (k : String)
    (v : ℚ) (h : metricsBounded pa) :
    metricsBounded (set_personality_metric pa k v) := by
  intro p hp
  simp only [set_personality_metric] at hp
  unfold insertMetric at hp
  split_ifs at hp with hk
  · rcases List.mem_map.1 hp with ⟨q, hq, rfl⟩
    split_ifs with hqk
    · exact rclamp_bounds v
    · exact h q hq
  · rcases List.mem_append.1 hp with hq | hq
    · exact h p hq
    · rcases List.mem_singleton.1 hq with rfl
      exact rclamp_bounds v

/-- `adapt_personality_from_feedback` leaves every metric value in [-1, 1]
(each adjusted value is reclamped), with no assumption on the prior values. -/
theorem adapt_personality_from_feedback_bounded (pa : PersonalityAdapter)
    (f : ℚ) : metricsBounded (adapt_personality_from_feedback pa f) := by
  intro p hp
  simp only [adapt_personality_from_feedback] at hp
  rcases List.mem_map.1 hp with ⟨q, hq, rfl⟩
  exact adaptMetricValue_bounds pa.learning_rate f q.1 q.2

/-- `update_user_feedback` preserves metric boundedness. -/
theorem update_user_feedback_bounded (pa : PersonalityAdapter) (t : String)
    (f : ℚ) (h : metricsBounded pa) :
    metricsBounded (update_user_feedback pa t f) := by
  unfold update_user_feedback
  split
  · exact h
  · exact adapt_personality_from_feedback_bounded _ f

/-- The calls through which the engine can touch the personality adapter:
`set_personality_metric`, the event append performed inside every `process`
call, and `update_user_feedback`. -/
inductive PAOp where
  | setMetric (name : String) (value : ℚ)
  | processEvent (now : ℚ) (inp : CognitiveInput)
  | userFeedback (taskId : String) (value : ℚ)

/-- One adapter-touching call. -/
def applyPAOp (squash : ℚ → ℚ) (pa : PersonalityAdapter) : PAOp → PersonalityAdapter
  | PAOp.setMetric n v => set_personality_metric pa n v
  | PAOp.processEvent now inp => (apply_personality_adaptation squash pa now inp).1
  | PAOp.userFeedback t v => update_user_feedback pa t v

/-- A sequence of adapter-touching calls. -/
def applyPAOps (squash : ℚ → ℚ) (ops : List PAOp) (pa : PersonalityAdapter) :
    PersonalityAdapter :=
  ops.foldl (applyPAOp squash) pa

/-- Every single adapter-touching call preserves metric boundedness. -/
theorem applyPAOp_bounded (squash : ℚ → ℚ) (pa : PersonalityAdapter)
    (op : PAOp) (h : metricsBounded pa) :
    metricsBounded (applyPAOp squash pa op) := by
  cases op with
  | setMetric n v => exact set_personality_metric_bounded pa n v h
  | processEvent now inp => exact h
  | userFeedback t v => exact update_user_feedback_bounded pa t v h

/-- Folding adapter-touching calls preserves metric boundedness. -/
theorem applyPAOps_bounded (squash : ℚ → ℚ) (ops : List PAOp) :
    ∀ pa : PersonalityAdapter, metricsBounded pa →
    metricsBounded (applyPAOps squash ops pa) := by
  induction ops with
  | nil => intro pa h; exact h
  | cons op rest ih =>
    intro pa h
    exact ih (applyPAOp squash pa op) (applyPAOp_bounded squash pa op h)

/-- C6: after any sequence of `set_personality_metric` calls and feedback
applications (and the event appends `process` performs), every stored
personality metric value lies within [-1, 1]. -/
theorem claim_C6 : ∀ (squash : ℚ → ℚ) (ops : List PAOp) (p : String × ℚ),
    p ∈ (applyPAOps squash ops HRMCognitive.new.personality_adapter).personality_metrics →
    -1 ≤ p.2 ∧ p.2 ≤ 1 := by
  intro squash ops p hp
  exact applyPAOps_bounded squash ops HRMCognitive.new.personality_adapter
    (fun q hq => absurd hq (List.not_mem_nil q)) p hp

/-- C6 witness: storing 5 under "creativity" clamps it to 1, which lies in
[-1, 1]. -/
theorem claim_C6_witness :
    ("creativity", (1 : ℚ)) ∈
      (applyPAOps id [PAOp.setMetric "creativity" 5]
        HRMCognitive.new.personality_adapter).personality_metrics ∧
    (-1 ≤ (1 : ℚ) ∧ (1 : ℚ) ≤ 1) := by
  have hm : ("creativity", (1 : ℚ)) ∈
      (applyPAOps id [PAOp.setMetric "creativity" 5]
        HRMCognitive.new.personality_adapter).personality_metrics := by
    simp [applyPAOps, applyPAOp, set_personality_metric, insertMetric,
      HRMCognitive.new, rclamp]
    norm_num
  exact ⟨hm, claim_C6 id [PAOp.setMetric "creativity" 5] ("creativity", 1) hm⟩

/-- C1: on a freshly constructed engine with 3 fast and 2 deep units, no
personality metrics set (so the influence is tanh 0 = 0) and sensory input
[1, 2, 3], `process_cognitive_input` computes fast activations
[0.2, 0.4, 0.6] and deep activations [0.048, 0.096]; in general, for
non-empty sensory input the fast activation at 0-based index `i` is
mean(sensory) × (i+1)/10 × (1 + influence×0.2), and the deep activation at
index `i` is (sum(fast)/planning_depth) × (i+1)/5 × emotional_modifier. -/
theorem claim_C1 (squash fsqrt : ℚ → ℚ) (hsq : squash 0 = 0) :
    (∀ (ctx task : String) (now : ℚ),
      ((process_cognitive_input squash fsqrt now (initialize_modules HRMCognitive.new 3 2)
          (some { sensory_data := [1, 2, 3], context := ctx, task_type := task })).2).map
        (fun o => o.l_module_activations) = some [some (1/5), some (2/5), some (3/5)] ∧
      ((process_cognitive_input squash fsqrt now (initialize_modules HRMCognitive.new 3 2)
          (some { sensory_data := [1, 2, 3], context := ctx, task_type := task })).2).map
        (fun o => o.h_module_activations) = some [some (6/125), some (12/125)]) ∧
    (∀ (sensory : List ℚ) (influence : ℚ) (i : ℕ), sensory ≠ [] →
      fastActivation sensory influence i
        = some (sensory.sum / sensory.length * (((i : ℚ) + 1) / 10)
            * (1 + influence * (1/5)))) ∧
    (∀ (fast : List ℚ) (emod : ℚ) (depth : ℕ) (i : ℕ), depth ≠ 0 →
      deepActivation (fast.map some) (some emod) depth i
        = some (fast.sum / (depth : ℚ) * (((i : ℚ) + 1) / 5) * emod)) := by
  refine ⟨?_, ?_, ?_⟩
  · intro ctx task now
    constructor
    · show some [fastActivation [1, 2, 3] (squash (personalityInfluenceRaw [])) 0,
                 fastActivation [1, 2, 3] (squash (personalityInfluenceRaw [])) 1,
                 fastActivation [1, 2, 3] (squash (personalityInfluenceRaw [])) 2]
           = some [some (1/5), some (2/5), some (3/5)]
      rw [show squash (personalityInfluenceRaw []) = 0 from hsq]
      simp [fastActivation, meanF32, oDiv, oMul]
      norm_num
    · show some [deepActivation
                   [fastActivation [1, 2, 3] (squash (personalityInfluenceRaw [])) 0,
                    fastActivation [1, 2, 3] (squash (personalityInfluenceRaw [])) 1,
                    fastActivation [1, 2, 3] (squash (personalityInfluenceRaw [])) 2]
                   (oAdd (oMul (some 0) (some (1/10))) (some 1)) 5 0,
                 deepActivation
                   [fastActivation [1, 2, 3] (squash (personalityInfluenceRaw [])) 0,
                    fastActivation [1, 2, 3] (squash (personalityInfluenceRaw [])) 1,
                    fastActivation [1, 2, 3] (squash (personalityInfluenceRaw [])) 2]
                   (oAdd (oMul (some 0) (some (1/10))) (some 1)) 5 1]
           = some [some (6/125), some (12/125)]
      rw [show squash (personalityInfluenceRaw []) = 0 from hsq]
      simp [deepActivation, fastActivation, meanF32, oSum, oDiv, oMul, oAdd]
      norm_num
  · intro sensory influence i hne
    have h0 : sensory.length ≠ 0 := fun h => hne (List.length_eq_zero.1 h)
    have hq : (sensory.length : ℚ) ≠ 0 := Nat.cast_ne_zero.2 h0
    simp [fastActivation, meanF32, oDiv, oMul, hq]
  · intro fast emod depth i hd
    have hq : ((depth : ℕ) : ℚ) ≠ 0 := Nat.cast_ne_zero.2 hd
    simp [deepActivation, oSum_map_some, oDiv, oMul, hq]

/-- C1 witness: the scenario at the identity squash (which sends 0 to 0,
as tanh does). -/
theorem claim_C1_witness :
    ((id : ℚ → ℚ) 0 = 0) ∧
    ((process_cognitive_input (id : ℚ → ℚ) (id : ℚ → ℚ) 0
        (initialize_modules HRMCognitive.new 3 2)
        (some { sensory_data := [1, 2, 3], context := "c", task_type := "t" })).2).map
      (fun o => o.l_module_activations) = some [some (1/5), some (2/5), some (3/5)] :=
  ⟨rfl, ((claim_C1 id id rfl).1 "c" "t" 0).1⟩

/-- The data one memory-admission call depends on: the clock reading, the
input, and the two activation sequences of the cycle. -/
structure StoreArgs where
  now : ℚ
  inp : CognitiveInput
  l_acts : List (Option ℚ)
  h_acts : List (Option ℚ)
deriving DecidableEq

/-- The item one admission would construct. -/
def mkStoreItem (a : StoreArgs) : MemoryItem :=
  mkMemoryItem a.now a.inp (significance a.l_acts a.h_acts)

/-- One memory-admission call on the buffer. -/
def storeStep (buf : List MemoryItem) (a : StoreArgs) : List MemoryItem :=
  store_memory_if_significant buf a.now a.inp a.l_acts a.h_acts

/-- A sequence of full `process_cognitive_input` calls, each with its own
clock reading and (possibly malformed) decoded input. -/
def runProcesses (squash fsqrt : ℚ → ℚ) (st : HRMCognitive)
    (inputs : List (ℚ × Option CognitiveInput)) : HRMCognitive :=
  inputs.foldl (fun s p => (process_cognitive_input squash fsqrt p.1 s p.2).1) st

/-- One admission call keeps the buffer within the 100-item cap. -/
theorem store_length_le (buf : List MemoryItem) (now : ℚ) (inp : CognitiveInput)
    (la ha : List (Option ℚ)) (h : buf.length ≤ 100) :
    (store_memory_if_significant buf now inp la ha).length ≤ 100 := by
  unfold store_memory_if_significant
  split_ifs with h1
  · show (if (buf ++ [mkMemoryItem now inp (significance la ha)]).length > 100
        then (buf ++ [mkMemoryItem now inp (significance la ha)]).tail
        else buf ++ [mkMemoryItem now inp (significance la ha)]).length ≤ 100
    split_ifs with h2
    · rw [List.length_tail, List.length_append, List.length_singleton]
      omega
    · rw [List.length_append, List.length_singleton] at h2 ⊢
      omega
  · exact h

/-- One full `process_cognitive_input` call keeps the buffer within the
100-item cap. -/
theorem process_buffer_le (squash fsqrt : ℚ → ℚ) (now : ℚ) (st : HRMCognitive)
    (parsed : Option CognitiveInput)
    (h : st.cognitive_state.memory_buffer.length ≤ 100) :
    ((process_cognitive_input squash fsqrt now st parsed).1).cognitive_state.memory_buffer.length
      ≤ 100 := by
  cases parsed with
  | none => exact h
  | some inp => exact store_length_le _ _ _ _ _ h

/-- Folding admissions, when every cycle is admitted, keeps the last 100
items of the would-be unbounded buffer. -/
theorem foldl_storeStep_admits : ∀ (l : List StoreArgs) (buf : List MemoryItem),
    (∀ a ∈ l, sigAdmits a.l_acts a.h_acts = true) → buf.length ≤ 100 →
    l.foldl storeStep buf
      = (buf ++ l.map mkStoreItem).drop (buf.length + l.length - 100) := by
  intro l
  induction l with
  | nil =>
    intro buf _ hlen
    simp [Nat.sub_eq_zero_of_le hlen]
  | cons a rest ih =>
    intro buf hadm hlen
    have ha : sigAdmits a.l_acts a.h_acts = true := hadm a (List.mem_cons_self a rest)
    rw [List.foldl_cons]
    have hstep : storeStep buf a =
        if (buf ++ [mkStoreItem a]).length > 100 then (buf ++ [mkStoreItem a]).tail
        else buf ++ [mkStoreItem a] := by
      unfold storeStep store_memory_if_significant
      rw [if_pos ha]
      rfl
    rcases Nat.lt_or_ge buf.length 100 with hb | hb
    · have hno : ¬ (buf ++ [mkStoreItem a]).length > 100 := by
        rw [List.length_append, List.length_singleton]
        omega
      rw [hstep, if_neg hno,
        ih _ (fun x hx => hadm x (List.mem_cons_of_mem a hx))
          (by rw [List.length_append, List.length_singleton]; omega)]
      rw [List.append_assoc, List.singleton_append, List.map_cons,
        List.length_append, List.length_singleton, List.length_cons]
      congr 1
      omega
    · have hb100 : buf.length = 100 := le_antisymm hlen hb
      have hyes : (buf ++ [mkStoreItem a]).length > 100 := by
        rw [List.length_append, List.length_singleton]
        omega
      obtain ⟨b0, buf', rfl⟩ : ∃ b0 buf', buf = b0 :: buf' := by
        cases buf with
        | nil => simp at hb100
        | cons x xs => exact ⟨x, xs, rfl⟩
      have h99 : buf'.length = 99 := by
        rw [List.length_cons] at hb100
        omega
      rw [hstep, if_pos hyes]
      have htail : ((b0 :: buf') ++ [mkStoreItem a]).tail = buf' ++ [mkStoreItem a] := rfl
      rw [htail,
        ih _ (fun x hx => hadm x (List.mem_cons_of_mem a hx))
          (by rw [List.length_append, List.length_singleton]; omega)]
      rw [List.append_assoc, List.singleton_append, List.map_cons,
        List.cons_append, List.length_append, List.length_singleton,
        List.length_cons, List.length_cons]
      rw [show buf'.length + 1 + rest.length - 100 = rest.length by omega,
        show buf'.length + 1 + (rest.length + 1) - 100 = rest.length + 1 by omega,
        List.drop_succ_cons]

/-- Any sequence of `process_cognitive_input` calls keeps the buffer within
the cap. -/
theorem runProcesses_buffer_le (squash fsqrt : ℚ → ℚ) :
    ∀ (inputs : List (ℚ × Option CognitiveInput)) (st : HRMCognitive),
    st.cognitive_state.memory_buffer.length ≤ 100 →
    (runProcesses squash fsqrt st inputs).cognitive_state.memory_buffer.length ≤ 100 := by
  intro inputs
  induction inputs with
  | nil => intro st h; exact h
  | cons p rest ih =>
    intro st h
    exact ih _ (process_buffer_le squash fsqrt p.1 st p.2 h)

/-- C5: after any sequence of `process` calls the memory buffer holds at
most 100 items; when an admission happens at capacity the evicted item is
the front (earliest-inserted surviving) one; and after 101 consecutive
admissions with significance > 0.5 starting from an empty buffer, the
buffer holds exactly 100 items — the 1st-admitted item is gone and the 2nd
through 101st remain in insertion order. -/
theorem claim_C5 :
    (∀ (squash fsqrt : ℚ → ℚ) (st : HRMCognitive)
        (inputs : List (ℚ × Option CognitiveInput)),
      st.cognitive_state.memory_buffer.length ≤ 100 →
      (runProcesses squash fsqrt st inputs).cognitive_state.memory_buffer.length ≤ 100) ∧
    (∀ (buf : List MemoryItem) (now : ℚ) (inp : CognitiveInput)
        (la ha : List (Option ℚ)),
      sigAdmits la ha = true → buf.length = 100 →
      store_memory_if_significant buf now inp la ha
        = buf.tail ++ [mkMemoryItem now inp (significance la ha)]) ∧
    (∀ args : ℕ → StoreArgs,
      (∀ i, i < 101 → sigAdmits (args i).l_acts (args i).h_acts = true) →
      ((List.range 101).map args).foldl storeStep []
          = (((List.range 101).map args).map mkStoreItem).drop 1 ∧
        (((List.range 101).map args).foldl storeStep []).length = 100) := by
  refine ⟨fun squash fsqrt st inputs h => runProcesses_buffer_le squash fsqrt inputs st h,
    ?_, ?_⟩
  · intro buf now inp la ha hadm hlen
    unfold store_memory_if_significant
    rw [if_pos hadm]
    have hyes : (buf ++ [mkMemoryItem now inp (significance la ha)]).length > 100 := by
      rw [List.length_append, List.length_singleton]
      omega
    show (if (buf ++ [mkMemoryItem now inp (significance la ha)]).length > 100
        then (buf ++ [mkMemoryItem now inp (significance la ha)]).tail
        else buf ++ [mkMemoryItem now inp (significance la ha)])
      = buf.tail ++ [mkMemoryItem now inp (significance la ha)]
    rw [if_pos hyes]
    cases buf with
    | nil => simp at hlen
    | cons b bs => rfl
  · intro args hadm
    have hmem : ∀ a ∈ (List.range 101).map args, sigAdmits a.l_acts a.h_acts = true := by
      intro a haa
      rcases List.mem_map.1 haa with ⟨i, hi, rfl⟩
      exact hadm i (List.mem_range.1 hi)
    have h := foldl_storeStep_admits ((List.range 101).map args) [] hmem (by simp)
    rw [List.nil_append, List.length_nil, Nat.zero_add, List.length_map,
      List.length_range] at h
    refine ⟨h, ?_⟩
    rw [h, List.length_drop, List.length_map, List.length_map, List.length_range]

/-- C5 witness: 101 admissions of a cycle whose significance is 1. -/
theorem claim_C5_witness :
    sigAdmits [some 1] [some 1] = true ∧
    ((List.range 101).map (fun _ =>
        ({ now := 0, inp := { sensory_data := [], context := "c", task_type := "t" },
           l_acts := [some 1], h_acts := [some 1] } : StoreArgs))).foldl storeStep []
      = (((List.range 101).map (fun _ =>
          ({ now := 0, inp := { sensory_data := [], context := "c", task_type := "t" },
             l_acts := [some 1], h_acts := [some 1] } : StoreArgs))).map mkStoreItem).drop 1 := by
  have hs : sigAdmits [some 1] [some 1] = true := by
    unfold sigAdmits significance
    norm_num [oSum, oAdd, oDiv]
  exact ⟨hs, (claim_C5.2.2 (fun _ =>
    ({ now := 0, inp := { sensory_data := [], context := "c", task_type := "t" },
       l_acts := [some 1], h_acts := [some 1] } : StoreArgs)) (fun i _ => hs)).1⟩
